import Mathlib

/-!
Verification of the rincewrite workflow engine specification against the
code in `src/rincewrite/rincewrite.py`.

The repository wires a four-node LangGraph state graph
(`welcome -> user_action -> update_piece -> chat -> user_action`) with a
checkpointer and `interrupt_before=["user_action"]` into a Reflex UI.
The step functions, the graph wiring and the UI event handlers live in the
source file and are embedded here directly from it.  The generic executor,
snapshot-merge and graph-compilation machinery belongs to the LangGraph
library and is not part of the repository's sources; where a claim is
about that machinery it is modelled from the specification text (each such
definition carries a doc comment starting `Modelled from the spec:`).

External LLM chain calls (`_welcome_chain`, `_update_piece_chain`,
`_chat_chain`) are opaque asynchronous collaborators; they are embedded as
function parameters (oracles) from chain input to chain output.
-/

namespace Rincewrite

/-- `PieceUpdate` pydantic model (source lines 35-44): a structured
proposal of a new title, description and body text. -/
structure PieceUpdate where
  new_title : String
  new_desc : String
  new_text : String
deriving Repr, DecidableEq

/-- A chat message: LangChain `BaseMessage` restricted to what the claims
need — a role tag (`type` in LangChain: "ai", "human", ...) and content. -/
structure Message where
  role : String
  content : String
deriving Repr, DecidableEq

/-- `GraphState` TypedDict (source lines 47-52): the state snapshot
threaded through the graph.  `messages` is annotated with the
`add_messages` reducer, making it the append-typed field. -/
structure GraphState where
  piece_title : String
  piece_desc : String
  piece_text : String
  piece_update : PieceUpdate
  messages : List Message
deriving Repr, DecidableEq

/-- A value that can appear in a step's output dict. -/
inductive FieldVal where
  | vstr (s : String)
  | vupd (u : PieceUpdate)
  | vmsgs (ms : List Message)
deriving Repr, DecidableEq

/-- A step output / state update: a Python dict from field names to
values, embedded as an association list. -/
abbrev GraphDelta := List (String × FieldVal)

/-- The field names declared by the `GraphState` schema
(source lines 47-52). -/
def schemaKeys : List String :=
  ["piece_title", "piece_desc", "piece_text", "piece_update", "messages"]

/-- Modelled from the spec: application of one field of a state update to
a snapshot (LangGraph channel update, library code not in the repository).
Fields present replace the receiver's field; the append-typed `messages`
field concatenates onto the receiver's log. -/
def applyField (s : GraphState) (kv : String × FieldVal) : GraphState :=
  match kv with
  | ("piece_title", FieldVal.vstr v) => { s with piece_title := v }
  | ("piece_desc", FieldVal.vstr v) => { s with piece_desc := v }
  | ("piece_text", FieldVal.vstr v) => { s with piece_text := v }
  | ("piece_update", FieldVal.vupd v) => { s with piece_update := v }
  | ("messages", FieldVal.vmsgs v) => { s with messages := s.messages ++ v }
  | _ => s

/-- Pure application of a whole state update to a snapshot. -/
def applyDelta (s : GraphState) (d : GraphDelta) : GraphState :=
  d.foldl applyField s

/-- Pure fold of a sequence of step outputs into a snapshot, in execution
order. -/
def foldDeltas (s : GraphState) (ds : List GraphDelta) : GraphState :=
  ds.foldl applyDelta s

/-- The error taxonomy of the specification (section 7). -/
inductive RWError where
  | SchemaMismatch
  | NotPaused
deriving Repr, DecidableEq

/-- Modelled from the spec: `merge(partial) -> StateSnapshot` (section
4.1; the merge itself is LangGraph library code not in the repository).
Returns a new snapshot where fields present in the update replace or
append to the receiver's; fails with `SchemaMismatch` when the update
holds a field name unknown to the declared schema. -/
def merge (s : GraphState) (d : GraphDelta) : Except RWError GraphState :=
  if d.all (fun kv => schemaKeys.contains kv.1) then
    Except.ok (applyDelta s d)
  else
    Except.error RWError.SchemaMismatch

/-- The `configurable` map of a LangChain `RunnableConfig`, as used by the
source: a string-keyed dict with `.get(key, default)` access. -/
structure Configurable where
  entries : List (String × String)
deriving Repr, DecidableEq

/-- Python `dict.get(k, d)`. -/
def Configurable.get (c : Configurable) (k d : String) : String :=
  match c.entries.find? (fun kv => kv.1 == k) with
  | some kv => kv.2
  | none => d

/-- Input dict passed to `_welcome_chain.ainvoke` (source lines 65-74). -/
structure WelcomeChainInput where
  user_name : String
  user_desc : String
  piece_title : String
  piece_desc : String
deriving Repr, DecidableEq

/-- The dict literal of source lines 65-74. -/
def welcomeChainInput (state : GraphState) (cfg : Configurable) :
    WelcomeChainInput :=
  { user_name := cfg.get "user_name" "UNKNOWN_USER"
  , user_desc := cfg.get "user_desc" "NO_USER_DESC"
  , piece_title := state.piece_title
  , piece_desc := state.piece_desc }

/-- `_welcome` node (source lines 60-76): invokes the welcome chain and
returns `{"messages": [welcome_msg]}`. -/
def _welcome (chain : WelcomeChainInput → Message)
    (state : GraphState) (cfg : Configurable) : GraphDelta :=
  [("messages", FieldVal.vmsgs [chain (welcomeChainInput state cfg)])]

/-- `_user_action` node (source lines 81-83): a fake no-op node serving as
the entry point for the user's actions; returns no update. -/
def _user_action (_state : GraphState) : GraphDelta := []

/-- Input dict passed to `_update_piece_chain.ainvoke`
(source lines 97-108). -/
structure UpdatePieceChainInput where
  user_name : String
  user_desc : String
  piece_title : String
  piece_desc : String
  piece_text : String
  messages : List Message
deriving Repr, DecidableEq

/-- The dict literal of source lines 97-108. -/
def updatePieceChainInput (state : GraphState) (cfg : Configurable) :
    UpdatePieceChainInput :=
  { user_name := cfg.get "user_name" "UNKNOWN_USER"
  , user_desc := cfg.get "user_desc" "NO_USER_DESC"
  , piece_title := state.piece_title
  , piece_desc := state.piece_desc
  , piece_text := state.piece_text
  , messages := state.messages }

/-- `_update_piece` node (source lines 93-111): invokes the structured
output chain and returns `{"piece_update": piece_update}`. -/
def _update_piece (chain : UpdatePieceChainInput → PieceUpdate)
    (state : GraphState) (cfg : Configurable) : GraphDelta :=
  [("piece_update", FieldVal.vupd (chain (updatePieceChainInput state cfg)))]

/-- Input dict passed to `_chat_chain.ainvoke` (source lines 123-137). -/
structure ChatChainInput where
  user_name : String
  user_desc : String
  piece_title : String
  piece_desc : String
  piece_text : String
  messages : List Message
  new_piece_text : String
  new_piece_title : String
  new_piece_desc : String
deriving Repr, DecidableEq

/-- The dict literal of source lines 123-137. -/
def chatChainInput (state : GraphState) (cfg : Configurable) :
    ChatChainInput :=
  { user_name := cfg.get "user_name" "UNKNOWN_USER"
  , user_desc := cfg.get "user_desc" "NO_USER_DESC"
  , piece_title := state.piece_title
  , piece_desc := state.piece_desc
  , piece_text := state.piece_text
  , messages := state.messages
  , new_piece_text := state.piece_update.new_text
  , new_piece_title := state.piece_update.new_title
  , new_piece_desc := state.piece_update.new_desc }

/-- `_chat` node (source lines 118-143): invokes the chat chain and
returns the pending update's fields as the new piece fields together with
the chat message. -/
def _chat (chain : ChatChainInput → Message)
    (state : GraphState) (cfg : Configurable) : GraphDelta :=
  [("piece_text", FieldVal.vstr state.piece_update.new_text),
   ("piece_title", FieldVal.vstr state.piece_update.new_title),
   ("piece_desc", FieldVal.vstr state.piece_update.new_desc),
   ("messages", FieldVal.vmsgs [chain (chatChainInput state cfg)])]

/-- An executable plan: the graph wiring produced by compilation.  Nodes,
directed edges, entry point and the set of steps flagged
`interrupt_before`. -/
structure StepGraph where
  nodes : List String
  edges : List (String × String)
  entryPoint : String
  interruptBefore : List String
deriving Repr, DecidableEq

/-- The single outgoing edge of a step (the graph of the source gives
every node exactly one outgoing edge). -/
def StepGraph.next (g : StepGraph) (n : String) : Option String :=
  (g.edges.find? (fun e => e.1 == n)).map (fun e => e.2)

/-- The compiled rincewrite graph, wired exactly as source lines 145-155
with `interrupt_before=["user_action"]` from lines 205-208. -/
def rwGraph : StepGraph :=
  { nodes := ["welcome", "user_action", "update_piece", "chat"]
  , edges := [("welcome", "user_action"), ("user_action", "update_piece"),
              ("update_piece", "chat"), ("chat", "user_action")]
  , entryPoint := "welcome"
  , interruptBefore := ["user_action"] }

/-- A checkpoint: an immutable copy of a state snapshot plus the name of
the next step to run (spec section 3). -/
structure Checkpoint where
  snapshot : GraphState
  nextStep : String
deriving Repr, DecidableEq

/-- How one execution burst ended.  `outOfFuel` is an artifact of the
fuel-indexed embedding of the executor loop (the source graph is cyclic);
the claims quantify over enough fuel to avoid it. -/
inductive BurstEnd where
  | paused (step : String)
  | completed
  | failed (cause : String)
  | outOfFuel
deriving Repr, DecidableEq

/-- The observable outcome of one execution burst: its terminal event,
the checkpoints persisted during the burst in append order, and the
outputs of the steps that completed during the burst in execution
order. -/
structure BurstResult where
  outcome : BurstEnd
  written : List Checkpoint
  trace : List GraphDelta
deriving Repr, DecidableEq

/-- A step body: a Transform may fail (ExternalCallFailure from its
collaborator) or produce a state update. -/
abbrev StepFun := String → GraphState → Except String GraphDelta

/-- Modelled from the spec: the executor transition rule of section 4.5
(the executor is LangGraph library code not in the repository).  Starting
from the loaded checkpoint's next step, repeatedly: (a) if the current
step is flagged as an interrupt point and no fresh external input has been
supplied for it, persist a checkpoint whose next step is this same step
and stop paused; (b) otherwise execute the step, merge its output into the
snapshot, persist a checkpoint whose next step follows the single outgoing
edge, and continue.  A step failure aborts the burst with no checkpoint
written for that step.  `fresh` is the set of step names for which fresh
external input has been supplied since the last pause. -/
def runBurst (g : StepGraph) (stepFn : StepFun) (fresh : List String) :
    Nat → Checkpoint → BurstResult
  | 0, _ => { outcome := BurstEnd.outOfFuel, written := [], trace := [] }
  | fuel + 1, cp =>
    let step := cp.nextStep
    if g.interruptBefore.contains step && !(fresh.contains step) then
      { outcome := BurstEnd.paused step
      , written := [{ snapshot := cp.snapshot, nextStep := step }]
      , trace := [] }
    else
      match stepFn step cp.snapshot with
      | Except.error cause =>
        { outcome := BurstEnd.failed cause, written := [], trace := [] }
      | Except.ok delta =>
        match merge cp.snapshot delta with
        | Except.error _ =>
          { outcome := BurstEnd.failed "SchemaMismatch"
          , written := [], trace := [] }
        | Except.ok s' =>
          match g.next step with
          | none =>
            { outcome := BurstEnd.completed
            , written := [{ snapshot := s', nextStep := "__end__" }]
            , trace := [delta] }
          | some nxt =>
            let res := runBurst g stepFn fresh fuel
              { snapshot := s', nextStep := nxt }
            { outcome := res.outcome
            , written := { snapshot := s', nextStep := nxt } :: res.written
            , trace := delta :: res.trace }

/-- The resume point after a burst: the last persisted checkpoint, or the
loaded one when the burst persisted nothing. -/
def BurstResult.finalCp (cp : Checkpoint) (r : BurstResult) : Checkpoint :=
  r.written.getLast?.getD cp

/-- The snapshot at the resume point after a burst. -/
def BurstResult.finalSnap (cp : Checkpoint) (r : BurstResult) : GraphState :=
  (BurstResult.finalCp cp r).snapshot

/-- One thread id's current state: its latest checkpoint and its current
pause point (the step an interrupt pause is waiting at, if any). -/
structure Thread where
  cp : Checkpoint
  pausedAt : Option String
deriving Repr, DecidableEq

/-- Modelled from the spec: `update(threadId, stepName, payload)` of
section 4.6 (LangGraph `aupdate_state`, library code not in the
repository).  Requires the thread's current pause point to equal
`stepName`, else fails with `NotPaused`; writes the payload into the
snapshot as if it were the output of that step, advances the next step via
the step's outgoing edge, persists the checkpoint, and does not itself
resume execution. -/
def update (g : StepGraph) (t : Thread) (stepName : String)
    (payload : GraphDelta) : Except RWError Thread :=
  if t.pausedAt = some stepName then
    match merge t.cp.snapshot payload with
    | Except.error e => Except.error e
    | Except.ok s' =>
      match g.next stepName with
      | some nxt =>
        Except.ok { cp := { snapshot := s', nextStep := nxt }
                  , pausedAt := none }
      | none =>
        Except.ok { cp := { snapshot := s', nextStep := "__end__" }
                  , pausedAt := none }
  else
    Except.error RWError.NotPaused

/-- One `run`/`resume` execution request on a thread: runs a burst from
the thread's latest checkpoint and stores the resume point and the new
pause point. -/
def runThread (g : StepGraph) (stepFn : StepFun) (fresh : List String)
    (fuel : Nat) (t : Thread) : Thread × BurstResult :=
  let r := runBurst g stepFn fresh fuel t.cp
  ({ cp := BurstResult.finalCp t.cp r
   , pausedAt := match r.outcome with
      | BurstEnd.paused s => some s
      | _ => none }, r)

/-- One call of the thread-level API: an execution request or an external
state update. -/
inductive ThreadCall where
  | runCall (fresh : List String) (fuel : Nat)
  | updateCall (stepName : String) (payload : GraphDelta)

/-- Applies one call to a thread, returning the new thread and the
outputs of the steps that successfully completed during the call (an
accepted update payload counts as the output of the paused step, spec
section 4.6; a rejected call contributes nothing). -/
def applyCall (g : StepGraph) (stepFn : StepFun) (t : Thread) :
    ThreadCall → Thread × List GraphDelta
  | ThreadCall.runCall fresh fuel =>
    let (t', r) := runThread g stepFn fresh fuel t
    (t', r.trace)
  | ThreadCall.updateCall n p =>
    match update g t n p with
    | Except.ok t' => (t', [p])
    | Except.error _ => (t, [])

/-- Applies a sequence of calls to a thread, collecting all completed
steps' outputs in execution order. -/
def runCalls (g : StepGraph) (stepFn : StepFun) (t : Thread) :
    List ThreadCall → Thread × List GraphDelta
  | [] => (t, [])
  | c :: cs =>
    let p := applyCall g stepFn t c
    let q := runCalls g stepFn p.1 cs
    (q.1, p.2 ++ q.2)

/-- A structural violation found by graph compilation (spec section
4.4). -/
inductive Violation where
  | missingEntry
  | unknownEndpoint (name : String)
  | noOutgoing (name : String)
deriving Repr, DecidableEq

/-- A graph under construction: `addStep`, `addEdge`, `setEntry`
accumulate into this record; `terminals` is the set of explicitly terminal
steps. -/
structure BuilderGraph where
  nodes : List String
  edges : List (String × String)
  entry : Option String
  terminals : List String
deriving Repr, DecidableEq

/-- Modelled from the spec: the entry-existence validation of section 4.4
(compilation is LangGraph library code not in the repository). -/
def entryViolations (g : BuilderGraph) : List Violation :=
  match g.entry with
  | some e => if g.nodes.contains e then [] else [Violation.missingEntry]
  | none => [Violation.missingEntry]

/-- Modelled from the spec: every edge endpoint must name a declared
step. -/
def endpointViolations (g : BuilderGraph) : List Violation :=
  (g.edges.map (fun e => [e.1, e.2])).flatten.filterMap (fun n =>
    if g.nodes.contains n then none
    else some (Violation.unknownEndpoint n))

/-- Modelled from the spec: every non-terminal step must have at least one
outgoing edge. -/
def outgoingViolations (g : BuilderGraph) : List Violation :=
  g.nodes.filterMap (fun n =>
    if g.terminals.contains n || g.edges.any (fun e => e.1 == n) then none
    else some (Violation.noOutgoing n))

/-- Modelled from the spec: the three compile-time validations of section
4.4; all violations are collected, not only the first. -/
def validate (g : BuilderGraph) : List Violation :=
  entryViolations g ++ endpointViolations g ++ outgoingViolations g

/-- Modelled from the spec: `compile() -> ExecutablePlan` (section 4.4).
Fails with `InvalidGraph` listing all violations when validation finds
any; otherwise produces the executable plan, recording the
`interrupt_before` list passed at compile time (source lines 205-208). -/
def compile (g : BuilderGraph) (interrupt_before : List String) :
    Except (List Violation) StepGraph :=
  match validate g with
  | [] =>
    Except.ok { nodes := g.nodes
              , edges := g.edges
              , entryPoint := g.entry.getD ""
              , interruptBefore := interrupt_before }
  | v :: vs => Except.error (v :: vs)

/-- The graph built by source lines 145-155: four named nodes, the
conversation cycle of edges, and `welcome` as entry point.  No node is
explicitly terminal. -/
def rwBuilder : BuilderGraph :=
  { nodes := ["welcome", "user_action", "update_piece", "chat"]
  , edges := [("welcome", "user_action"), ("user_action", "update_piece"),
              ("update_piece", "chat"), ("chat", "user_action")]
  , entry := some "welcome"
  , terminals := [] }

/-- The step dispatch of the compiled graph: each node name mapped to the
embedded step body from the source, with the three LLM chains passed as
oracles.  Every declared node is total (returns `ok`); an undeclared name
is an executor error. -/
def rwStepFn (wChain : WelcomeChainInput → Message)
    (uChain : UpdatePieceChainInput → PieceUpdate)
    (cChain : ChatChainInput → Message)
    (cfg : Configurable) : StepFun := fun name state =>
  match name with
  | "welcome" => Except.ok (_welcome wChain state cfg)
  | "user_action" => Except.ok (_user_action state)
  | "update_piece" => Except.ok (_update_piece uChain state cfg)
  | "chat" => Except.ok (_chat cChain state cfg)
  | other => Except.error ("unknown step: " ++ other)

/-- The fields of the Reflex `RWState` (source lines 158-179) that the
event handlers read when building a `RunnableConfig`. -/
structure RWState where
  user_name : String
  user_desc : String
  piece_title : String
  piece_desc : String
deriving Repr, DecidableEq

/-- The `RunnableConfig` constructed by `RWState.welcome`
(source lines 197-202). -/
def welcomeConfig (st : RWState) : Configurable :=
  { entries := [("thread_id", st.user_name),
                ("user_name", st.user_name),
                ("user_desc", st.user_desc)] }

/-- The `RunnableConfig` constructed by `RWState.handle_user_msg_submit`
(source lines 269-274). -/
def handleUserMsgConfig (st : RWState) : Configurable :=
  { entries := [("thread_id", st.user_name),
                ("user_name", st.user_name),
                ("user_desc", st.user_desc)] }

/-- A well-typed state update over the declared schema, each field
optional; `toDelta` renders it as the association-list form a step output
takes. -/
structure DeltaRec where
  piece_title : Option String := none
  piece_desc : Option String := none
  piece_text : Option String := none
  piece_update : Option PieceUpdate := none
  messages : Option (List Message) := none
deriving Repr, DecidableEq

/-- The association-list rendering of a structured update: exactly the
fields present, in schema order. -/
def DeltaRec.toDelta (d : DeltaRec) : GraphDelta :=
  (d.piece_title.map (fun v => ("piece_title", FieldVal.vstr v))).toList ++
  (d.piece_desc.map (fun v => ("piece_desc", FieldVal.vstr v))).toList ++
  (d.piece_text.map (fun v => ("piece_text", FieldVal.vstr v))).toList ++
  (d.piece_update.map (fun v => ("piece_update", FieldVal.vupd v))).toList ++
  (d.messages.map (fun v => ("messages", FieldVal.vmsgs v))).toList

/-- Sample chain oracle for the welcome step, for concrete evaluations. -/
def sampleWChain : WelcomeChainInput → Message :=
  fun _ => { role := "ai", content := "welcome" }

/-- Sample chain oracle for the update_piece step. -/
def sampleUChain : UpdatePieceChainInput → PieceUpdate :=
  fun _ => { new_title := "t2", new_desc := "d2", new_text := "x2" }

/-- Sample chain oracle for the chat step. -/
def sampleCChain : ChatChainInput → Message :=
  fun _ => { role := "ai", content := "chat" }

/-- An empty configurable map. -/
def sampleCfg : Configurable := { entries := [] }

/-- The rincewrite step dispatch with sample oracles. -/
def sampleStepFn : StepFun :=
  rwStepFn sampleWChain sampleUChain sampleCChain sampleCfg

/-- A concrete pending update. -/
def samplePieceUpdate : PieceUpdate :=
  { new_title := "t", new_desc := "d", new_text := "x" }

/-- A concrete snapshot. -/
def sampleState : GraphState :=
  { piece_title := "T", piece_desc := "D", piece_text := "X"
  , piece_update := samplePieceUpdate, messages := [] }

/-- A concrete user message. -/
def sampleMsg : Message := { role := "human", content := "hi" }

/-- A thread whose next step is the interrupt barrier, not yet paused. -/
def sampleThread : Thread :=
  { cp := { snapshot := sampleState, nextStep := "user_action" }
  , pausedAt := none }

/-- A thread paused at the `user_action` barrier. -/
def pausedThread : Thread :=
  { cp := { snapshot := sampleState, nextStep := "user_action" }
  , pausedAt := some "user_action" }

/-- A thread already advanced past the `user_action` interrupt. -/
def pastThread : Thread :=
  { cp := { snapshot := sampleState, nextStep := "update_piece" }
  , pausedAt := none }

/-- A user-message payload for the barrier step. -/
def msgPayload : GraphDelta := [("messages", FieldVal.vmsgs [sampleMsg])]

/-- The thread that `update` produces from `pausedThread` and
`msgPayload`. -/
def updatedThread : Thread :=
  { cp := { snapshot := { sampleState with messages := [sampleMsg] }
          , nextStep := "update_piece" }
  , pausedAt := none }

/-- A structurally invalid builder graph: undeclared entry, an edge to the
undeclared node `c`, and the non-terminal node `b` without an outgoing
edge. -/
def badBuilder : BuilderGraph :=
  { nodes := ["a", "b"], edges := [("a", "b"), ("a", "c")]
  , entry := some "missing", terminals := [] }

/-- A step body that always fails, standing for an external-call
failure. -/
def failStepFn : StepFun := fun _ _ => Except.error "boom"

/-- A concrete app state. -/
def sampleRWState : RWState :=
  { user_name := "ada", user_desc := "poet"
  , piece_title := "T", piece_desc := "D" }

/-- A second concrete app state with the same user name. -/
def otherRWState : RWState :=
  { user_name := "ada", user_desc := "other"
  , piece_title := "U", piece_desc := "E" }

theorem merge_eq_ok {s : GraphState} {d : GraphDelta} {r : GraphState}
    (h : merge s d = Except.ok r) : r = applyDelta s d := by
  unfold merge at h
  split at h
  · injection h with h2
    exact h2.symm
  · exact Except.noConfusion h

theorem foldDeltas_append (s : GraphState) (a b : List GraphDelta) :
    foldDeltas s (a ++ b) = foldDeltas (foldDeltas s a) b := by
  simp [foldDeltas, List.foldl_append]

/-- C5: The graph routes `update_piece` to `chat`, and the `PieceUpdate`
written by `update_piece` into the snapshot's `piece_update` field is
consumed by the immediately following `chat` step: after `update_piece`'s
output and then `chat`'s output are merged, the snapshot's `piece_title`,
`piece_desc` and `piece_text` equal the pending update's `new_title`,
`new_desc` and `new_text`. -/
theorem c5_pending_update_consumed
    (uChain : UpdatePieceChainInput → PieceUpdate)
    (cChain : ChatChainInput → Message)
    (s : GraphState) (cfg : Configurable) :
    rwGraph.next "update_piece" = some "chat" ∧
    ((applyDelta (applyDelta s (_update_piece uChain s cfg))
        (_chat cChain (applyDelta s (_update_piece uChain s cfg))
          cfg)).piece_title =
      (uChain (updatePieceChainInput s cfg)).new_title ∧
     (applyDelta (applyDelta s (_update_piece uChain s cfg))
        (_chat cChain (applyDelta s (_update_piece uChain s cfg))
          cfg)).piece_desc =
      (uChain (updatePieceChainInput s cfg)).new_desc ∧
     (applyDelta (applyDelta s (_update_piece uChain s cfg))
        (_chat cChain (applyDelta s (_update_piece uChain s cfg))
          cfg)).piece_text =
      (uChain (updatePieceChainInput s cfg)).new_text) := by
  refine ⟨rfl, ?_, ?_, ?_⟩ <;> rfl

/-- C9: Each of the three Transform steps reads `user_name` and
`user_desc` from the configurable map with the defaults `UNKNOWN_USER` and
`NO_USER_DESC`: when the key is absent the chain is invoked with the
default in its place, and the step dispatch still returns an `ok` update
for each of the three steps (no failure from the absent options). -/
theorem c9_config_defaults (s : GraphState) (cfg : Configurable)
    (h1 : cfg.entries.find? (fun kv => kv.1 == "user_name") = none)
    (h2 : cfg.entries.find? (fun kv => kv.1 == "user_desc") = none) :
    (welcomeChainInput s cfg).user_name = "UNKNOWN_USER" ∧
    (welcomeChainInput s cfg).user_desc = "NO_USER_DESC" ∧
    (updatePieceChainInput s cfg).user_name = "UNKNOWN_USER" ∧
    (updatePieceChainInput s cfg).user_desc = "NO_USER_DESC" ∧
    (chatChainInput s cfg).user_name = "UNKNOWN_USER" ∧
    (chatChainInput s cfg).user_desc = "NO_USER_DESC" ∧
    (∀ wChain uChain cChain,
      rwStepFn wChain uChain cChain cfg "welcome" s =
        Except.ok (_welcome wChain s cfg) ∧
      rwStepFn wChain uChain cChain cfg "update_piece" s =
        Except.ok (_update_piece uChain s cfg) ∧
      rwStepFn wChain uChain cChain cfg "chat" s =
        Except.ok (_chat cChain s cfg)) := by
  refine ⟨?_, ?_, ?_, ?_, ?_, ?_, fun _ _ _ => ⟨rfl, rfl, rfl⟩⟩ <;>
    simp [welcomeChainInput, updatePieceChainInput, chatChainInput,
      Configurable.get, h1, h2]

/-- Witness for C9 at the empty configurable map and the sample
snapshot. -/
theorem c9_config_defaults_witness :
    (welcomeChainInput sampleState sampleCfg).user_name = "UNKNOWN_USER" ∧
    (welcomeChainInput sampleState sampleCfg).user_desc = "NO_USER_DESC" ∧
    (updatePieceChainInput sampleState sampleCfg).user_name =
      "UNKNOWN_USER" ∧
    (updatePieceChainInput sampleState sampleCfg).user_desc =
      "NO_USER_DESC" ∧
    (chatChainInput sampleState sampleCfg).user_name = "UNKNOWN_USER" ∧
    (chatChainInput sampleState sampleCfg).user_desc = "NO_USER_DESC" ∧
    (∀ wChain uChain cChain,
      rwStepFn wChain uChain cChain sampleCfg "welcome" sampleState =
        Except.ok (_welcome wChain sampleState sampleCfg) ∧
      rwStepFn wChain uChain cChain sampleCfg "update_piece" sampleState =
        Except.ok (_update_piece uChain sampleState sampleCfg) ∧
      rwStepFn wChain uChain cChain sampleCfg "chat" sampleState =
        Except.ok (_chat cChain sampleState sampleCfg)) :=
  c9_config_defaults sampleState sampleCfg rfl rfl

/-- C10: Both `RunnableConfig` constructions of the application — the one
in `RWState.welcome` and the one in `RWState.handle_user_msg_submit` —
set `thread_id` to the user's name, so two sessions with the same
`user_name` address the same thread id. -/
theorem c10_thread_id_is_user_name (st : RWState) (d : String) :
    (welcomeConfig st).get "thread_id" d = st.user_name ∧
    (handleUserMsgConfig st).get "thread_id" d = st.user_name ∧
    (∀ st2 : RWState, st2.user_name = st.user_name →
      (welcomeConfig st2).get "thread_id" d =
        (handleUserMsgConfig st).get "thread_id" d) := by
  refine ⟨rfl, rfl, fun st2 h => ?_⟩
  show st2.user_name = st.user_name
  exact h

/-- Witness for C10 at two concrete app states sharing a user name. -/
theorem c10_thread_id_is_user_name_witness :
    (welcomeConfig sampleRWState).get "thread_id" "none" = "ada" ∧
    (handleUserMsgConfig otherRWState).get "thread_id" "none" = "ada" ∧
    (welcomeConfig sampleRWState).get "thread_id" "none" =
      (handleUserMsgConfig otherRWState).get "thread_id" "none" :=
  ⟨(c10_thread_id_is_user_name sampleRWState "none").1,
   (c10_thread_id_is_user_name otherRWState "none").2.1,
   (c10_thread_id_is_user_name otherRWState "none").2.2
     sampleRWState rfl⟩

/-- C4: Merging a well-typed update over the declared schema replaces the
fields present, retains the fields absent, concatenates the append-typed
`messages` field onto the receiver's log, and succeeds; merging an update
holding a field name unknown to the declared schema fails with
`SchemaMismatch`.  (Purity of the receiver is by construction: `merge`
is a pure function of the receiver, which it never mutates.) -/
theorem c4_merge_semantics (s : GraphState) (d : DeltaRec) :
    (∃ r, merge s d.toDelta = Except.ok r ∧
      r.piece_title = d.piece_title.getD s.piece_title ∧
      r.piece_desc = d.piece_desc.getD s.piece_desc ∧
      r.piece_text = d.piece_text.getD s.piece_text ∧
      r.piece_update = d.piece_update.getD s.piece_update ∧
      r.messages = s.messages ++ d.messages.getD []) ∧
    (∀ p : GraphDelta, (∃ kv ∈ p, schemaKeys.contains kv.1 = false) →
      merge s p = Except.error RWError.SchemaMismatch) := by
  constructor
  · obtain ⟨ot, od, ox, ou, om⟩ := d
    cases ot <;> cases od <;> cases ox <;> cases ou <;> cases om <;>
      refine ⟨_, rfl, ?_, ?_, ?_, ?_, ?_⟩ <;>
      simp [DeltaRec.toDelta, applyDelta, applyField]
  · intro p hp
    obtain ⟨kv, hmem, hk⟩ := hp
    have hcond : ¬ (p.all (fun kv => schemaKeys.contains kv.1) = true) := by
      intro hall
      have h2 := List.all_eq_true.mp hall kv hmem
      simp at h2 hk
      exact hk h2
    unfold merge
    exact if_neg hcond

/-- Witness for C4: a title-and-message update at the sample snapshot, and
a one-field update with the undeclared key `bogus`. -/
theorem c4_merge_semantics_witness :
    (∃ r, merge sampleState (DeltaRec.toDelta
        { piece_title := some "n", messages := some [sampleMsg] }) =
          Except.ok r ∧
      r.piece_title = (some "n").getD sampleState.piece_title ∧
      r.piece_desc = Option.getD none sampleState.piece_desc ∧
      r.piece_text = Option.getD none sampleState.piece_text ∧
      r.piece_update = Option.getD none sampleState.piece_update ∧
      r.messages = sampleState.messages ++ (some [sampleMsg]).getD []) ∧
    merge sampleState [("bogus", FieldVal.vstr "v")] =
      Except.error RWError.SchemaMismatch :=
  ⟨(c4_merge_semantics sampleState
      { piece_title := some "n", messages := some [sampleMsg] }).1,
   (c4_merge_semantics sampleState
      { piece_title := some "n", messages := some [sampleMsg] }).2
     [("bogus", FieldVal.vstr "v")]
     ⟨("bogus", FieldVal.vstr "v"), by decide, by decide⟩⟩

theorem getLastD_cons (l : List Checkpoint) :
    ∀ (a cp : Checkpoint),
      ((a :: l).getLast?).getD cp = (l.getLast?).getD a := by
  induction l with
  | nil => intro a cp; rfl
  | cons b t ih =>
    intro a cp
    rw [List.getLast?_cons_cons, ih b cp, ← ih b a]

/-- C1: An execution burst that reaches a step flagged `interrupt_before`
without fresh external input for it does not execute the step: it persists
one checkpoint whose recorded next step is that same step name, ends in
the paused state with an empty execution trace, and a repeated execution
request without new input re-pauses identically at the same step. -/
theorem c1_interrupt_pauses (g : StepGraph) (f : StepFun)
    (fresh : List String) (fuel : Nat) (t : Thread)
    (hI : g.interruptBefore.contains t.cp.nextStep = true)
    (hF : fresh.contains t.cp.nextStep = false) :
    runThread g f fresh (fuel + 1) t =
      ({ cp := { snapshot := t.cp.snapshot, nextStep := t.cp.nextStep }
       , pausedAt := some t.cp.nextStep },
       { outcome := BurstEnd.paused t.cp.nextStep
       , written := [{ snapshot := t.cp.snapshot
                     , nextStep := t.cp.nextStep }]
       , trace := [] }) ∧
    runThread g f fresh (fuel + 1) (runThread g f fresh (fuel + 1) t).1 =
      ((runThread g f fresh (fuel + 1) t).1,
       { outcome := BurstEnd.paused t.cp.nextStep
       , written := [{ snapshot := t.cp.snapshot
                     , nextStep := t.cp.nextStep }]
       , trace := [] }) := by
  have h1 : ∀ cp : Checkpoint, cp = t.cp →
      runBurst g f fresh (fuel + 1) cp =
      { outcome := BurstEnd.paused t.cp.nextStep
      , written := [{ snapshot := t.cp.snapshot, nextStep := t.cp.nextStep }]
      , trace := [] } := by
    intro cp hcp
    subst hcp
    have hI2 : t.cp.nextStep ∈ g.interruptBefore := by simpa using hI
    have hF2 : t.cp.nextStep ∉ fresh := by simpa using hF
    rw [runBurst]
    simp [hI2, hF2]
  have h2 := h1 t.cp rfl
  have h3 : (runThread g f fresh (fuel + 1) t).1.cp = t.cp := by
    simp [runThread, h2, BurstResult.finalCp]
  constructor
  · simp [runThread, h2, BurstResult.finalCp]
  · have h4 := h1 (runThread g f fresh (fuel + 1) t).1.cp h3
    simp only [runThread, h4]
    simp [runThread, h2, BurstResult.finalCp]

/-- Witness for C1: the rincewrite graph paused before `user_action` with
no fresh input. -/
theorem c1_interrupt_pauses_witness :
    rwGraph.interruptBefore.contains sampleThread.cp.nextStep = true ∧
    (([] : List String).contains sampleThread.cp.nextStep = false) ∧
    runThread rwGraph sampleStepFn [] (3 + 1) sampleThread =
      ({ cp := { snapshot := sampleThread.cp.snapshot
               , nextStep := sampleThread.cp.nextStep }
       , pausedAt := some sampleThread.cp.nextStep },
       { outcome := BurstEnd.paused sampleThread.cp.nextStep
       , written := [{ snapshot := sampleThread.cp.snapshot
                     , nextStep := sampleThread.cp.nextStep }]
       , trace := [] }) :=
  ⟨by decide, by decide,
   (c1_interrupt_pauses rwGraph sampleStepFn [] 3 sampleThread
     (by decide) (by decide)).1⟩

theorem runBurst_finalSnap (g : StepGraph) (f : StepFun)
    (fresh : List String) :
    ∀ (fuel : Nat) (cp : Checkpoint),
      BurstResult.finalSnap cp (runBurst g f fresh fuel cp) =
        foldDeltas cp.snapshot (runBurst g f fresh fuel cp).trace := by
  intro fuel
  induction fuel with
  | zero =>
    intro cp
    simp [runBurst, BurstResult.finalSnap, BurstResult.finalCp, foldDeltas]
  | succ n ih =>
    intro cp
    rw [runBurst]
    split
    · simp [BurstResult.finalSnap, BurstResult.finalCp, foldDeltas]
    · split
      · simp [BurstResult.finalSnap, BurstResult.finalCp, foldDeltas]
      · split
        · simp [BurstResult.finalSnap, BurstResult.finalCp, foldDeltas]
        · rename_i delta hstep s' hm
          split
          · rename_i hn
            simp only [BurstResult.finalSnap, BurstResult.finalCp]
            simp [foldDeltas, applyDelta, merge_eq_ok hm]
          · rename_i nxt hn
            simp only [BurstResult.finalSnap, BurstResult.finalCp]
            rw [getLastD_cons]
            have hrec := ih { snapshot := s', nextStep := nxt }
            simp only [BurstResult.finalSnap, BurstResult.finalCp] at hrec
            rw [hrec]
            simp [foldDeltas, applyDelta, merge_eq_ok hm]

theorem update_eq_ok {g : StepGraph} {t : Thread} {n : String}
    {p : GraphDelta} {t' : Thread} (h : update g t n p = Except.ok t') :
    t.pausedAt = some n ∧
    t'.cp.snapshot = applyDelta t.cp.snapshot p ∧
    t'.cp.nextStep = (g.next n).getD "__end__" ∧
    t'.pausedAt = none := by
  unfold update at h
  split at h
  · rename_i hp
    split at h
    · exact Except.noConfusion h
    · rename_i s' hm
      split at h
      · rename_i nxt hn
        injection h with h
        subst h
        exact ⟨hp, merge_eq_ok hm, by simp [hn], rfl⟩
      · rename_i hn
        injection h with h
        subst h
        exact ⟨hp, merge_eq_ok hm, by simp [hn], rfl⟩
  · exact Except.noConfusion h

theorem applyCall_snapshot (g : StepGraph) (f : StepFun) (t : Thread)
    (c : ThreadCall) :
    (applyCall g f t c).1.cp.snapshot =
      foldDeltas t.cp.snapshot (applyCall g f t c).2 := by
  cases c with
  | runCall fresh fuel =>
    simp only [applyCall, runThread]
    exact runBurst_finalSnap g f fresh fuel t.cp
  | updateCall n p =>
    cases h : update g t n p with
    | ok t' =>
      simp only [applyCall, h]
      simp [foldDeltas, (update_eq_ok h).2.1]
    | error e =>
      simp [applyCall, h, foldDeltas]

/-- C3: For every sequence of run/resume execution requests and external
updates on one thread, the final snapshot equals the pure fold of the
outputs of all successfully completed steps (an accepted update payload
counting as the paused step's output), merged in execution order into the
initial snapshot, however many pauses and resumes occurred in between. -/
theorem c3_fold_property (g : StepGraph) (f : StepFun) :
    ∀ (cs : List ThreadCall) (t : Thread),
      (runCalls g f t cs).1.cp.snapshot =
        foldDeltas t.cp.snapshot (runCalls g f t cs).2 := by
  intro cs
  induction cs with
  | nil => intro t; simp [runCalls, foldDeltas]
  | cons c cs ih =>
    intro t
    simp only [runCalls]
    rw [foldDeltas_append, ← applyCall_snapshot g f t c]
    exact ih (applyCall g f t c).1

/-- C2: `update` on a thread whose current pause point differs from the
named step fails with `NotPaused` (in particular on a thread already past
the interrupt, so a repeated resume payload is never silently re-applied);
when the pause point matches, it writes the payload into the snapshot as
that step's output, advances the recorded next step along the step's
outgoing edge, and performs no step execution itself. -/
theorem c2_update_semantics (g : StepGraph) (t : Thread) (stepName : String)
    (payload : GraphDelta) :
    (t.pausedAt ≠ some stepName →
      update g t stepName payload = Except.error RWError.NotPaused) ∧
    (∀ t', update g t stepName payload = Except.ok t' →
      t.pausedAt = some stepName ∧
      t'.cp.snapshot = applyDelta t.cp.snapshot payload ∧
      t'.cp.nextStep = (g.next stepName).getD "__end__" ∧
      t'.pausedAt = none) := by
  constructor
  · intro h
    unfold update
    rw [if_neg h]
  · intro t' h
    exact update_eq_ok h

/-- Witness for C2: a thread already advanced past `user_action` is
rejected with `NotPaused`; a thread paused at `user_action` has the
message payload applied and the next step advanced to `update_piece`. -/
theorem c2_update_semantics_witness :
    update rwGraph pastThread "user_action" msgPayload =
      Except.error RWError.NotPaused ∧
    (pausedThread.pausedAt = some "user_action" ∧
     updatedThread.cp.snapshot =
       applyDelta pausedThread.cp.snapshot msgPayload ∧
     updatedThread.cp.nextStep =
       (rwGraph.next "user_action").getD "__end__" ∧
     updatedThread.pausedAt = none) :=
  ⟨(c2_update_semantics rwGraph pastThread "user_action" msgPayload).1
     (by simp [pastThread]),
   (c2_update_semantics rwGraph pausedThread "user_action" msgPayload).2
     updatedThread (by rfl)⟩

theorem runBurst_written_length (g : StepGraph) (f : StepFun)
    (fresh : List String) :
    ∀ (fuel : Nat) (cp : Checkpoint),
      (runBurst g f fresh fuel cp).written.length =
        (runBurst g f fresh fuel cp).trace.length +
          (match (runBurst g f fresh fuel cp).outcome with
           | BurstEnd.paused _ => 1
           | _ => 0) := by
  intro fuel
  induction fuel with
  | zero => intro cp; rfl
  | succ n ih =>
    intro cp
    rw [runBurst]
    split
    · rfl
    · split
      · rfl
      · split
        · rfl
        · rename_i delta hstep s' hm
          split
          · rfl
          · rename_i nxt hn
            dsimp only
            have hrec := ih { snapshot := s', nextStep := nxt }
            rw [List.length_cons, List.length_cons, hrec,
              Nat.add_right_comm]

/-- C7: When an execution burst ends in the `Failed` state, every
checkpoint persisted during the burst corresponds to a completed step (no
partial-step checkpoint: as many checkpoints as completed outputs), the
resume point equals the pure fold of the completed outputs into the loaded
snapshot (the last successfully written checkpoint is intact), the cause
is carried in the terminal outcome, and a re-invoked run/resume starts
from exactly that last checkpoint. -/
theorem c7_failure_semantics (g : StepGraph) (f : StepFun)
    (fresh : List String) (fuel : Nat) (cp : Checkpoint) (cause : String)
    (h : (runBurst g f fresh fuel cp).outcome = BurstEnd.failed cause) :
    (runBurst g f fresh fuel cp).written.length =
      (runBurst g f fresh fuel cp).trace.length ∧
    BurstResult.finalSnap cp (runBurst g f fresh fuel cp) =
      foldDeltas cp.snapshot (runBurst g f fresh fuel cp).trace ∧
    (runThread g f fresh fuel { cp := cp, pausedAt := none }).1.cp =
      BurstResult.finalCp cp (runBurst g f fresh fuel cp) := by
  refine ⟨?_, runBurst_finalSnap g f fresh fuel cp, rfl⟩
  have hl := runBurst_written_length g f fresh fuel cp
  rw [h] at hl
  simpa using hl

/-- Witness for C7: an always-failing Transform step at the entry of the
rincewrite graph. -/
theorem c7_failure_semantics_witness :
    (runBurst rwGraph failStepFn [] 1
        { snapshot := sampleState, nextStep := "welcome" }).outcome =
      BurstEnd.failed "boom" ∧
    (runBurst rwGraph failStepFn [] 1
        { snapshot := sampleState, nextStep := "welcome" }).written.length =
      (runBurst rwGraph failStepFn [] 1
        { snapshot := sampleState, nextStep := "welcome" }).trace.length ∧
    BurstResult.finalSnap
        { snapshot := sampleState, nextStep := "welcome" }
        (runBurst rwGraph failStepFn [] 1
          { snapshot := sampleState, nextStep := "welcome" }) =
      foldDeltas sampleState
        (runBurst rwGraph failStepFn [] 1
          { snapshot := sampleState, nextStep := "welcome" }).trace :=
  ⟨rfl,
   (c7_failure_semantics rwGraph failStepFn [] 1
     { snapshot := sampleState, nextStep := "welcome" } "boom" rfl).1,
   (c7_failure_semantics rwGraph failStepFn [] 1
     { snapshot := sampleState, nextStep := "welcome" } "boom" rfl).2.1⟩

theorem applyField_messages (s : GraphState) (kv : String × FieldVal) :
    ∃ t, (applyField s kv).messages = s.messages ++ t := by
  unfold applyField
  split
  · exact ⟨[], by simp⟩
  · exact ⟨[], by simp⟩
  · exact ⟨[], by simp⟩
  · exact ⟨[], by simp⟩
  · exact ⟨_, rfl⟩
  · exact ⟨[], by simp⟩

theorem applyDelta_messages (d : GraphDelta) :
    ∀ s : GraphState, ∃ t, (applyDelta s d).messages = s.messages ++ t := by
  induction d with
  | nil => intro s; exact ⟨[], by simp [applyDelta]⟩
  | cons kv d ih =>
    intro s
    obtain ⟨t1, h1⟩ := applyField_messages s kv
    obtain ⟨t2, h2⟩ := ih (applyField s kv)
    refine ⟨t1 ++ t2, ?_⟩
    have hstep : applyDelta s (kv :: d) = applyDelta (applyField s kv) d :=
      rfl
    rw [hstep, h2, h1, List.append_assoc]

theorem foldDeltas_messages (ds : List GraphDelta) :
    ∀ s, ∃ t, (foldDeltas s ds).messages = s.messages ++ t := by
  induction ds with
  | nil => intro s; exact ⟨[], by simp [foldDeltas]⟩
  | cons d ds ih =>
    intro s
    obtain ⟨t1, h1⟩ := applyDelta_messages d s
    obtain ⟨t2, h2⟩ := ih (applyDelta s d)
    refine ⟨t1 ++ t2, ?_⟩
    have hstep : foldDeltas s (d :: ds) = foldDeltas (applyDelta s d) ds :=
      rfl
    rw [hstep, h2, h1, List.append_assoc]

/-- C8: The message log is append-only.  Any execution burst only extends
the loaded snapshot's log at its end; any accepted external update only
extends the paused snapshot's log at its end; the old log is the unchanged
front of the new one (no entry mutated or removed); and every entry is a
role-tagged record. -/
theorem c8_messages_append_only (g : StepGraph) (f : StepFun) :
    (∀ (fresh : List String) (fuel : Nat) (cp : Checkpoint), ∃ t,
      (BurstResult.finalSnap cp (runBurst g f fresh fuel cp)).messages =
        cp.snapshot.messages ++ t) ∧
    (∀ (t : Thread) (n : String) (p : GraphDelta) (t' : Thread),
      update g t n p = Except.ok t' → ∃ u,
        t'.cp.snapshot.messages = t.cp.snapshot.messages ++ u) ∧
    (∀ (s : GraphState) (d : GraphDelta),
      (applyDelta s d).messages.take s.messages.length = s.messages) ∧
    (∀ m : Message, m = { role := m.role, content := m.content }) := by
  refine ⟨?_, ?_, ?_, fun m => rfl⟩
  · intro fresh fuel cp
    rw [runBurst_finalSnap]
    exact foldDeltas_messages _ _
  · intro t n p t' h
    rw [(update_eq_ok h).2.1]
    exact applyDelta_messages p _
  · intro s d
    obtain ⟨t, ht⟩ := applyDelta_messages d s
    simp [ht]

/-- Witness for C8: the accepted user-message update onto the paused
thread extends the log. -/
theorem c8_messages_append_only_witness :
    ∃ u, updatedThread.cp.snapshot.messages =
      pausedThread.cp.snapshot.messages ++ u :=
  (c8_messages_append_only rwGraph sampleStepFn).2.1 pausedThread
    "user_action" msgPayload updatedThread rfl

theorem missingEntry_notMem_endpoint (g : BuilderGraph) :
    Violation.missingEntry ∉ endpointViolations g := by
  simp only [endpointViolations, List.mem_filterMap]
  rintro ⟨m, hm, h⟩
  split at h <;> simp_all

theorem missingEntry_notMem_outgoing (g : BuilderGraph) :
    Violation.missingEntry ∉ outgoingViolations g := by
  simp only [outgoingViolations, List.mem_filterMap]
  rintro ⟨m, hm, h⟩
  split at h <;> simp_all

theorem unknownEndpoint_notMem_entry (g : BuilderGraph) (n : String) :
    Violation.unknownEndpoint n ∉ entryViolations g := by
  unfold entryViolations
  cases g.entry with
  | none => simp
  | some e => split <;> simp

theorem unknownEndpoint_notMem_outgoing (g : BuilderGraph) (n : String) :
    Violation.unknownEndpoint n ∉ outgoingViolations g := by
  simp only [outgoingViolations, List.mem_filterMap]
  rintro ⟨m, hm, h⟩
  split at h <;> simp_all

theorem noOutgoing_notMem_entry (g : BuilderGraph) (n : String) :
    Violation.noOutgoing n ∉ entryViolations g := by
  unfold entryViolations
  cases g.entry with
  | none => simp
  | some e => split <;> simp

theorem noOutgoing_notMem_endpoint (g : BuilderGraph) (n : String) :
    Violation.noOutgoing n ∉ endpointViolations g := by
  simp only [endpointViolations, List.mem_filterMap]
  rintro ⟨m, hm, h⟩
  split at h <;> simp_all

theorem mem_entryViolations (g : BuilderGraph) :
    Violation.missingEntry ∈ entryViolations g ↔
      ¬ ∃ e, g.entry = some e ∧ g.nodes.contains e = true := by
  unfold entryViolations
  cases he : g.entry with
  | none => simp
  | some e =>
    by_cases hc : g.nodes.contains e = true
    · simp [hc]
    · simp [hc]

theorem mem_endpointViolations (g : BuilderGraph) (n : String) :
    Violation.unknownEndpoint n ∈ endpointViolations g ↔
      (g.nodes.contains n = false ∧
        ∃ e ∈ g.edges, e.1 = n ∨ e.2 = n) := by
  constructor
  · intro h
    simp only [endpointViolations, List.mem_filterMap, List.mem_flatten,
      List.mem_map] at h
    obtain ⟨m, ⟨l, ⟨e, he, hl⟩, hm⟩, hif⟩ := h
    split at hif
    · exact Option.noConfusion hif
    · rename_i hc
      injection hif with hif
      have hmn : m = n := by injection hif
      subst hmn
      subst hl
      simp only [List.mem_cons, List.not_mem_nil, or_false] at hm
      refine ⟨by simpa using hc, e, he, ?_⟩
      rcases hm with hm | hm
      · exact Or.inl hm.symm
      · exact Or.inr hm.symm
  · rintro ⟨hc, e, he, hor⟩
    simp only [endpointViolations, List.mem_filterMap, List.mem_flatten,
      List.mem_map]
    refine ⟨n, ⟨[e.1, e.2], ⟨e, he, rfl⟩, ?_⟩, ?_⟩
    · rcases hor with h | h <;> simp [h]
    · rw [hc]
      rfl

theorem mem_outgoingViolations (g : BuilderGraph) (n : String) :
    Violation.noOutgoing n ∈ outgoingViolations g ↔
      (n ∈ g.nodes ∧ g.terminals.contains n = false ∧
        ∀ e ∈ g.edges, e.1 ≠ n) := by
  constructor
  · intro h
    simp only [outgoingViolations, List.mem_filterMap] at h
    obtain ⟨m, hm, hif⟩ := h
    split at hif
    · exact Option.noConfusion hif
    · rename_i hc
      injection hif with hif
      have hmn : m = n := by injection hif
      have hcb : (g.terminals.contains m
          || g.edges.any (fun e => e.1 == m)) = false := by
        cases hb : (g.terminals.contains m
            || g.edges.any (fun e => e.1 == m)) with
        | true => exact absurd hb hc
        | false => rfl
      rw [Bool.or_eq_false_iff] at hcb
      subst hmn
      refine ⟨hm, hcb.1, ?_⟩
      intro e he heq
      have h2 := List.any_eq_false.mp hcb.2 e he
      exact h2 (by simp [heq])
  · rintro ⟨hmem, hterm, hout⟩
    simp only [outgoingViolations, List.mem_filterMap]
    refine ⟨n, hmem, ?_⟩
    have hc : (g.terminals.contains n
        || g.edges.any (fun e => e.1 == n)) = false := by
      rw [Bool.or_eq_false_iff]
      refine ⟨hterm, ?_⟩
      rw [List.any_eq_false]
      intro e he
      simpa using hout e he
    rw [hc]
    rfl

/-- C6: Compilation validates the three structural requirements and
reports all violations, not only the first: it succeeds exactly when
validation finds nothing, a failure carries the complete violation list,
`missingEntry` is reported iff no declared entry exists, an unknown edge
endpoint is reported iff some edge mentions it and it is undeclared, and a
missing outgoing edge is reported iff the step is declared, non-terminal
and source of no edge. -/
theorem c6_compile_validates (g : BuilderGraph) (ib : List String) :
    (∀ p, compile g ib = Except.ok p → validate g = []) ∧
    (∀ vs, compile g ib = Except.error vs → vs = validate g) ∧
    (Violation.missingEntry ∈ validate g ↔
      ¬ ∃ e, g.entry = some e ∧ g.nodes.contains e = true) ∧
    (∀ n, Violation.unknownEndpoint n ∈ validate g ↔
      (g.nodes.contains n = false ∧
        ∃ e ∈ g.edges, e.1 = n ∨ e.2 = n)) ∧
    (∀ n, Violation.noOutgoing n ∈ validate g ↔
      (n ∈ g.nodes ∧ g.terminals.contains n = false ∧
        ∀ e ∈ g.edges, e.1 ≠ n)) := by
  refine ⟨?_, ?_, ?_, ?_, ?_⟩
  · intro p hp
    unfold compile at hp
    split at hp
    · assumption
    · exact Except.noConfusion hp
  · intro vs hvs
    unfold compile at hvs
    split at hvs
    · exact Except.noConfusion hvs
    · rename_i v vs2 heq
      injection hvs with hvs
      rw [heq, hvs]
  · rw [validate, List.mem_append, List.mem_append]
    constructor
    · rintro ((h | h) | h)
      · exact (mem_entryViolations g).mp h
      · exact absurd h (missingEntry_notMem_endpoint g)
      · exact absurd h (missingEntry_notMem_outgoing g)
    · intro h
      exact Or.inl (Or.inl ((mem_entryViolations g).mpr h))
  · intro n
    rw [validate, List.mem_append, List.mem_append]
    constructor
    · rintro ((h | h) | h)
      · exact absurd h (unknownEndpoint_notMem_entry g n)
      · exact (mem_endpointViolations g n).mp h
      · exact absurd h (unknownEndpoint_notMem_outgoing g n)
    · intro h
      exact Or.inl (Or.inr ((mem_endpointViolations g n).mpr h))
  · intro n
    rw [validate, List.mem_append, List.mem_append]
    constructor
    · rintro ((h | h) | h)
      · exact absurd h (noOutgoing_notMem_entry g n)
      · exact absurd h (noOutgoing_notMem_endpoint g n)
      · exact (mem_outgoingViolations g n).mp h
    · intro h
      exact Or.inr ((mem_outgoingViolations g n).mpr h)

/-- Witness for C6: the rincewrite graph compiles cleanly, while the bad
builder graph fails with its full violation list — an undeclared entry, an
edge to the undeclared node `c`, and the non-terminal node `b` without an
outgoing edge are all reported together. -/
theorem c6_compile_validates_witness :
    compile rwBuilder ["user_action"] = Except.ok rwGraph ∧
    validate badBuilder = validate badBuilder ∧
    Violation.missingEntry ∈ validate badBuilder ∧
    Violation.unknownEndpoint "c" ∈ validate badBuilder ∧
    Violation.noOutgoing "b" ∈ validate badBuilder :=
  ⟨rfl,
   (c6_compile_validates badBuilder []).2.1 (validate badBuilder)
     (by rfl),
   (c6_compile_validates badBuilder []).2.2.1.mpr
     (by rintro ⟨e, he, hc⟩; cases he; exact absurd hc (by decide)),
   ((c6_compile_validates badBuilder []).2.2.2.1 "c").mpr
     ⟨by decide, ("a", "c"), by decide, Or.inr rfl⟩,
   ((c6_compile_validates badBuilder []).2.2.2.2 "b").mpr
     ⟨by decide, by decide, by decide⟩⟩

end Rincewrite
